import Mathlib

/-!
Verification development for the debug-server execution plane.

The definitions below are shallow embeddings of the Python sources:

* `debug_server/worktrees/dependency_sync.py` — `compute_dependency_hash`
* `debug_server/worktrees/pool.py`            — `WorktreePool.acquire_worktree`
* `debug_server/db/service.py`                — `MetadataStore`
* `debug_server/api/routers/sessions.py`      — `cancel_session`
* `debug_server/api/routers/commands.py`      — `queue_command`
* `debug_server/runner/supervisor.py`         — `WorkerSupervisor`
* `debug_server/runner/environment.py`        — `EnvironmentManager.ensure`
* `debug_server/api/streams.py`               — `LogManager`
* `debug_server/api/routers/logs.py`          — `stream_logs`

Machine strings are modelled by Lean `String`; byte streams by `List Nat`;
SHA-256 is modelled as the identity on the fed byte stream (a collision-free
hash), so equality of digests is equality of the concatenated input bytes.
-/

namespace DebugServer

/-- UTF-8 encoding of a single character, as the list of its byte values.
Mirrors Python's `str.encode("utf-8")` character by character. -/
def charUtf8 (c : Char) : List Nat :=
  let n := c.toNat
  if n < 0x80 then [n]
  else if n < 0x800 then [0xC0 ||| (n >>> 6), 0x80 ||| (n &&& 0x3F)]
  else if n < 0x10000 then
    [0xE0 ||| (n >>> 12), 0x80 ||| ((n >>> 6) &&& 0x3F), 0x80 ||| (n &&& 0x3F)]
  else
    [0xF0 ||| (n >>> 18), 0x80 ||| ((n >>> 12) &&& 0x3F),
     0x80 ||| ((n >>> 6) &&& 0x3F), 0x80 ||| (n &&& 0x3F)]

/-- UTF-8 bytes of a string (Python `s.encode("utf-8")`). -/
def strBytes (s : String) : List Nat :=
  s.data.foldr (fun c acc => charUtf8 c ++ acc) []

/-- Lexicographic code-point comparison of character lists; the order Python
uses for `str` and that `pathlib` uses to compare POSIX paths. -/
def charListLe : List Char → List Char → Bool
  | [], _ => true
  | _ :: _, [] => false
  | a :: as, b :: bs =>
    if a.toNat < b.toNat then true
    else if a.toNat = b.toNat then charListLe as bs
    else false

/-- String comparison by code points (Python `a <= b` on `str`). -/
def strLe (a b : String) : Bool := charListLe a.data b.data


/-! ## Dependency hasher — `debug_server/worktrees/dependency_sync.py`

`compute_dependency_hash(manifests, extra_inputs)` sorts the manifest paths
(`sorted(map(Path, manifests))`, i.e. by the path string as given), raises
`FileNotFoundError` for a missing manifest, and otherwise feeds, per manifest:
the basename (`path.name`), the file bytes, and the decimal text of
`st_mtime_ns`; then, for each metadata key in sorted order, the key bytes and
the value bytes.  The file system is modelled as a partial map from path
strings to file contents and mtime. -/

/-- Content and last-modified-nanoseconds of a file on disk. -/
structure FileMeta where
  bytes : List Nat
  mtimeNs : Int
deriving DecidableEq, Repr

/-- Model of the file system seen by the hasher: `none` when the path does not
exist. -/
def FsModel : Type := String → Option FileMeta

/-- Splitting of a character list on `'/'`. -/
def splitSlash : List Char → List (List Char)
  | [] => [[]]
  | c :: cs =>
    let r := splitSlash cs
    if c = '/' then [] :: r
    else
      match r with
      | [] => [[c]]
      | h :: t => (c :: h) :: t

/-- Basename of a path string (`pathlib.Path(p).name`): the last nonempty
slash-separated component. -/
def pathName (p : String) : String :=
  ⟨((splitSlash p.data).filter (fun s => s ≠ [])).getLastD []⟩

/-- Check whether a path string is absolute (starts with `'/'`). -/
def startsWithSlash (p : String) : Bool :=
  match p.data with
  | c :: _ => c = '/'
  | [] => false

/-- Strict lexicographic code-point comparison of character lists (Python
`a < b` on `str`). -/
def charListLt : List Char → List Char → Bool
  | [], [] => false
  | [], _ :: _ => true
  | _ :: _, [] => false
  | a :: as, b :: bs =>
    if a.toNat < b.toNat then true
    else if a.toNat = b.toNat then charListLt as bs
    else false

/-- Strict string comparison by code points (Python `a < b` on `str`). -/
def strLt (a b : String) : Bool := charListLt a.data b.data

/-- Components of a path as `pathlib.PurePosixPath(p).parts` (and its internal
`_parts` list): a leading `"/"` anchor when the path is absolute, then the
nonempty components, with `"."` components dropped by path parsing. -/
def pathParts (p : String) : List String :=
  let comps := ((splitSlash p.data).filter
    (fun s => !(s = []) && !(s = ['.']))).map (fun cs => String.mk cs)
  if startsWithSlash p then "/" :: comps else comps

/-- Python list/tuple comparison of string lists: elementwise, equal heads
continue, an exhausted prefix is smaller. -/
def listStrLe : List String → List String → Bool
  | [], _ => true
  | _ :: _, [] => false
  | a :: as, b :: bs =>
    if strLt a b then true
    else if a = b then listStrLe as bs
    else false

/-- Path comparison used by `sorted(map(Path, manifests))`: pathlib's
`PurePath.__lt__` compares the case-normalized component lists (`_cparts`),
i.e. the parts lists as Python lists of strings. -/
def pathLe (a b : String) : Bool := listStrLe (pathParts a) (pathParts b)

/-- Sorting of manifest paths done by `sorted(map(Path, manifests))`: a stable
sort of the given paths in pathlib's parts-wise path order. -/
def sortPaths (ps : List String) : List String :=
  List.insertionSort (fun a b => pathLe a b = true) ps

/-- Sorting of the metadata mapping by key, as done by
`for key in sorted(extra_inputs)`. -/
def sortMeta (xs : List (String × String)) : List (String × String) :=
  List.insertionSort (fun a b => strLe a.1 b.1 = true) xs

/-- Bytes fed to the digest for the metadata entries (key bytes then value
bytes, in key-sorted order). -/
def metaBytes (xs : List (String × String)) : List Nat :=
  (sortMeta xs).foldr (fun kv acc => strBytes kv.1 ++ strBytes kv.2 ++ acc) []

/-- Bytes fed to the digest for a list of manifest paths, in the given order:
basename, file bytes, decimal mtime for each; `none` when a path is missing
(`FileNotFoundError`). -/
def feedManifests (fs : FsModel) : List String → Option (List Nat)
  | [] => some []
  | p :: ps =>
    match fs p with
    | none => none
    | some m =>
      (feedManifests fs ps).map
        (fun rest => strBytes (pathName p) ++ m.bytes ++ strBytes (toString m.mtimeNs) ++ rest)

/-- Embedding of `compute_dependency_hash`: the digest is modelled as the
concatenated byte stream fed to SHA-256. -/
def computeDependencyHash (fs : FsModel) (manifests : List String)
    (extraInputs : List (String × String)) : Option (List Nat) :=
  (feedManifests fs (sortPaths manifests)).map (fun body => body ++ metaBytes extraInputs)

/-- The (basename, bytes, mtime) triples of a list of manifest paths in the
given order; `none` when a manifest is missing. -/
def triplesOf (fs : FsModel) : List String → Option (List (String × List Nat × Int))
  | [] => some []
  | p :: ps =>
    match fs p with
    | none => none
    | some m => (triplesOf fs ps).map (fun ts => (pathName p, m.bytes, m.mtimeNs) :: ts)

/-- The (basename, bytes, mtime) triples of the manifests in hash-feeding
order (paths sorted as given); `none` when a manifest is missing. -/
def manifestTriples (fs : FsModel) (manifests : List String) :
    Option (List (String × List Nat × Int)) :=
  triplesOf fs (sortPaths manifests)

/-- Absolute form of a path string against a working directory, used to state
the spec's "sort manifest paths by absolute path string". -/
def absPath (cwd p : String) : String :=
  if startsWithSlash p then p else cwd ++ "/" ++ p

/-- The (basename, bytes, mtime) triples ordered by sorting the manifest paths
by absolute path string — the ordering the specification describes. -/
def claimTriples (cwd : String) (fs : FsModel) (manifests : List String) :
    Option (List (String × List Nat × Int)) :=
  triplesOf fs
    (List.insertionSort (fun a b => strLe (absPath cwd a) (absPath cwd b) = true) manifests)

/-- Byte stream fed to the digest for a list of (basename, bytes, mtime)
triples. -/
def bytesOfTriples (ts : List (String × List Nat × Int)) : List Nat :=
  ts.foldr (fun t acc => strBytes t.1 ++ t.2.1 ++ strBytes (toString t.2.2) ++ acc) []

/-- Sample file system: `"ab"` holds byte `49` (`"1"`), `"a"` holds bytes
`98, 49` (`"b1"`), both with mtime 5; every other path is missing.  Feeding
basename then contents makes the two fed streams coincide: `"ab" + "1"` and
`"a" + "b1"` are byte-identical. -/
def exFs : FsModel := fun p =>
  if p = "ab" then some ⟨[49], 5⟩
  else if p = "a" then some ⟨[98, 49], 5⟩
  else none

/-- Sample file system exercising the difference between pathlib's parts-wise
path order and absolute-path-string order: `"r/b"` sorts before `"r.x/c"` by
parts but after it by absolute string (`'.' < '/'` at the diverging byte),
while `"s/b"` and `"a/c"` sort the same way under both orders; the two pairs
carry identical (basename, bytes, mtime) triples. -/
def exFs2 : FsModel := fun p =>
  if p = "r/b" then some ⟨[1], 5⟩
  else if p = "r.x/c" then some ⟨[2, 2], 7⟩
  else if p = "s/b" then some ⟨[1], 5⟩
  else if p = "a/c" then some ⟨[2, 2], 7⟩
  else none

/-! ## Metadata store rows — `debug_server/db/models.py` / `db/service.py`

Timestamps are modelled as natural numbers; `Option` models SQL NULL. -/

/-- Lifecycle states for a worktree entry (`WorktreeStatus`). -/
inductive WorktreeStatus where
  | idle
  | reserved
  | busy
deriving DecidableEq, Repr

/-- Lifecycle states for sessions (`SessionStatus`). -/
inductive SessionStatus where
  | pending
  | running
  | completed
  | failed
  | cancelled
deriving DecidableEq, Repr

/-- Command execution phases (`CommandStatus`). -/
inductive CommandStatus where
  | pending
  | running
  | succeeded
  | failed
  | cancelled
deriving DecidableEq, Repr

/-- Artifact categories (`ArtifactKind`). -/
inductive ArtifactKind where
  | log
  | coverage
  | junit
  | coreDump
  | custom
deriving DecidableEq, Repr

/-- A `worktrees` row. -/
structure Worktree where
  id : Nat
  repositoryId : Nat
  path : String
  commitSha : Option String
  environmentHash : Option String
  status : WorktreeStatus
  leaseOwner : Option String
  leaseToken : Option String
  leasedAt : Option Nat
  leaseExpiresAt : Option Nat
  version : Nat
  updatedAt : Nat
deriving DecidableEq, Repr

/-- Reservation predicate of `MetadataStore.reserve_worktree`: the row is IDLE,
or its lease expiry is set and earlier than `now`. -/
def eligible (now : Nat) (w : Worktree) : Bool :=
  w.status = WorktreeStatus.idle ||
    (match w.leaseExpiresAt with
     | some t => decide (t < now)
     | none => false)

/-- Rows considered by `reserve_worktree` for a repository, in the order the
query yields them: filtered by repository and the reservation predicate, then
ordered by `updated_at` ascending (`.order_by(Worktree.updated_at)`). -/
def reserveCandidates (store : List Worktree) (repoId : Nat) (now : Nat) : List Worktree :=
  List.insertionSort (fun a b => a.updatedAt ≤ b.updatedAt)
    (store.filter (fun w => w.repositoryId = repoId && eligible now w))

/-- The row `reserve_worktree` picks (`.first()` on the ordered query):
`none` models the `MetadataError` raised when no row matches. -/
def reserveSelected (store : List Worktree) (repoId : Nat) (now : Nat) : Option Worktree :=
  (reserveCandidates store repoId now).head?

/-- Mutation `reserve_worktree` applies to the selected row. -/
def reserveMark (w : Worktree) (owner token : String) (now ttl : Nat) : Worktree :=
  { w with
    status := WorktreeStatus.reserved
    leaseOwner := some owner
    leaseToken := some token
    leasedAt := some now
    leaseExpiresAt := some (now + ttl)
    version := w.version + 1
    updatedAt := now }

/-- Embedding of `MetadataStore.reserve_worktree`: selects a row, marks it
reserved and returns the fresh lease token together with the updated store.
`Except.error` models the raised `MetadataError`. -/
def reserveWorktree (store : List Worktree) (repoId : Nat) (owner token : String)
    (now ttl : Nat) : Except String (Worktree × List Worktree) :=
  match reserveSelected store repoId now with
  | none => Except.error "No worktree available for reservation"
  | some w =>
    let w' := reserveMark w owner token now ttl
    Except.ok (w', store.map (fun r => if r.id = w.id then w' else r))

/-- Mutation `release_worktree` applies on a token match. -/
def releaseMark (w : Worktree) (now : Nat) : Worktree :=
  { w with
    status := WorktreeStatus.idle
    leaseOwner := none
    leaseToken := none
    leasedAt := none
    leaseExpiresAt := none
    version := w.version + 1
    updatedAt := now }

/-- Embedding of `MetadataStore.release_worktree`: fails on an unknown id or a
lease-token mismatch (both raise `MetadataError`, aborting the transaction with
the row unchanged); otherwise resets the lease fields and sets status IDLE. -/
def releaseWorktree (store : List Worktree) (worktreeId : Nat) (leaseToken : String)
    (now : Nat) : Except String (List Worktree) :=
  match store.find? (fun w => w.id = worktreeId) with
  | none => Except.error "Unknown worktree"
  | some w =>
    if w.leaseToken = some leaseToken then
      Except.ok (store.map (fun r => if r.id = worktreeId then releaseMark r now else r))
    else
      Except.error "Lease token mismatch"

/-! ## Worktree pool — `debug_server/worktrees/pool.py` -/

/-- Computation of the lease's `needs_dependency_sync` flag in
`WorktreePool.acquire_worktree`:
`environment_hash is not None and (lease.worktree.environment_hash != environment_hash)`. -/
def acquireNeedsSync (prior requested : Option String) : Bool :=
  requested.isSome && decide (prior ≠ requested)

/-- The effect of one `acquire_worktree` call on the stored `environment_hash`
of the reserved worktree: the flag is computed from the previously stored hash,
then `update_worktree_metadata` stores the requested one.  (`release` does not
touch `environment_hash`.) -/
def acquireUpdate (stored requested : Option String) : Bool × Option String :=
  (acquireNeedsSync stored requested, requested)

/-! ## Sessions — `db/service.py` and `api/routers/sessions.py` -/

/-- A `sessions` row (the fields session cancellation touches). -/
structure SessionRow where
  id : String
  status : SessionStatus
  startedAt : Option Nat
  completedAt : Option Nat
  updatedAt : Nat
deriving DecidableEq, Repr

/-- Embedding of `MetadataStore.update_session_status`: sets the status
unconditionally; `started_at` / `completed_at` are only overwritten when
provided. -/
def updateSessionStatus (s : SessionRow) (status : SessionStatus)
    (startedAt completedAt : Option Nat) (now : Nat) : SessionRow :=
  { s with
    status := status
    startedAt := match startedAt with | some v => some v | none => s.startedAt
    completedAt := match completedAt with | some v => some v | none => s.completedAt
    updatedAt := now }

/-- Embedding of the `DELETE /sessions/{session_id}` handler `cancel_session`:
404 when the session does not exist, otherwise
`update_session_status(session_id, CANCELLED, completed_at=now)` with no check
of the current status. -/
def cancelSession (store : List SessionRow) (sessionId : String) (now : Nat) :
    Except String (List SessionRow) :=
  match store.find? (fun s => s.id = sessionId) with
  | none => Except.error "Session not found"
  | some _ =>
    Except.ok (store.map (fun s =>
      if s.id = sessionId then
        updateSessionStatus s SessionStatus.cancelled none (some now) now
      else s))

/-! ## Command sequence allocation

`WorkerSupervisor._next_sequence` keeps a per-session counter in an in-memory
dict (`self._sequence.get(session_id, 0)`, then stores `current + 1` and
returns `current`); the dict with default 0 is modelled as a total function. -/

/-- Embedding of `WorkerSupervisor._next_sequence`: returns the current counter
for the session and the updated counter map. -/
def nextSequence (st : String → Nat) (sessionId : String) : Nat × (String → Nat) :=
  (st sessionId, fun s => if s = sessionId then st sessionId + 1 else st s)

/-- Run a list of allocation requests (session ids in call order) through
`nextSequence`, recording each returned value with its session. -/
def runAlloc (st : String → Nat) : List String → List (String × Nat)
  | [] => []
  | sessionId :: rest =>
    let r := nextSequence st sessionId
    (sessionId, r.1) :: runAlloc r.2 rest

/-- Values allocated for one session, in allocation order. -/
def allocFor (sessionId : String) (l : List (String × Nat)) : List Nat :=
  l.filterMap (fun p => if p.1 = sessionId then some p.2 else none)

/-- A `commands` row (the fields sequence allocation touches). -/
structure CommandRow where
  sessionId : String
  sequence : Nat
deriving DecidableEq, Repr

/-- Modelled from the spec: `MetadataStore.next_command_sequence(session_id)`
"returns the current session's next sequence atomically" (§4.1) so that
"command `sequence` values form a strictly increasing sequence starting at 0"
(§8); the method is called by `api/routers/commands.py` but absent from
`db/service.py`.  The next sequence is the number of commands already created
for the session. -/
def nextCommandSequence (store : List CommandRow) (sessionId : String) : Nat :=
  (store.filter (fun c => c.sessionId = sessionId)).length

/-- Embedding of the `POST /sessions/{session_id}/commands` handler
`queue_command`: allocates the next sequence and creates the command row. -/
def queueCommand (store : List CommandRow) (sessionId : String) : List CommandRow :=
  store ++ [⟨sessionId, nextCommandSequence store sessionId⟩]

/-- Run a list of `queue_command` requests (session ids in arrival order)
against the store. -/
def runQueue (store : List CommandRow) : List String → List CommandRow
  | [] => store
  | sessionId :: rest => runQueue (queueCommand store sessionId) rest

/-- Sequence values of one session's command rows, in creation order. -/
def seqsFor (sessionId : String) (store : List CommandRow) : List Nat :=
  (store.filter (fun c => c.sessionId = sessionId)).map (fun c => c.sequence)

/-- A command-creating call: through the `POST /sessions/{id}/commands`
endpoint (store-backed `next_command_sequence`) or through
`WorkerSupervisor.run_command` (in-memory `_next_sequence`). -/
inductive AllocCall where
  | endpoint (sessionId : String)
  | supervisor (sessionId : String)
deriving DecidableEq, Repr

/-- One command creation against the shared command table: the endpoint
allocates from the store, the supervisor from its private counter map — the
two allocators do not consult each other. -/
def mixedStep (st : List CommandRow × (String → Nat)) (call : AllocCall) :
    List CommandRow × (String → Nat) :=
  match call with
  | AllocCall.endpoint sessionId => (queueCommand st.1 sessionId, st.2)
  | AllocCall.supervisor sessionId =>
    let r := nextSequence st.2 sessionId
    (st.1 ++ [⟨sessionId, r.1⟩], r.2)

/-- Command rows after a history of creations through both paths, starting
from an empty table and a fresh supervisor. -/
def runMixed (calls : List AllocCall) : List CommandRow :=
  (calls.foldl mixedStep ([], fun _ => 0)).1

/-! ## Worker supervisor — `debug_server/runner/supervisor.py`

`run_command` records the command RUNNING, then `_spawn_and_stream` spawns the
process; an `OSError` becomes one stderr log line plus `CommandExecutionError`,
a timeout kills the process and becomes one stderr log line with status
CANCELLED, and a normal exit maps exit code 0 to SUCCEEDED and anything else to
FAILED.  `run_command` finally records the terminal result and exactly one log
artifact (`_record_completion`).  The subprocess behaviour is an oracle
(`SpawnOutcome`); the log stream is the list of written chunks. -/

/-- Stream label of a log chunk. -/
inductive StreamLabel where
  | stdout
  | stderr
  | file
deriving DecidableEq, Repr

/-- A chunk written to the per-command log stream. -/
structure LogChunkM where
  stream : StreamLabel
  text : String
deriving DecidableEq, Repr

/-- Outcome of `process.wait(timeout=...)`. -/
inductive WaitOutcome where
  | timeout
  | exited (code : Int)
deriving DecidableEq, Repr

/-- Oracle for `subprocess.Popen` and the spawned process: either the spawn
raises `OSError` with a message, or the process runs, producing stdout and
stderr lines and a wait outcome. -/
inductive SpawnOutcome where
  | spawnFail (msg : String)
  | spawned (outLines errLines : List String) (wait : WaitOutcome)
deriving DecidableEq, Repr

/-- Result of `_spawn_and_stream` as observable effects: the chunks written to
the log stream, whether `process.kill()` was called, and either the raised
`CommandExecutionError` message or the `(exit_code, status)` pair returned. -/
structure SpawnTrace where
  chunks : List LogChunkM
  killed : Bool
  result : Except String (Option Int × CommandStatus)
deriving Repr

/-- Embedding of `WorkerSupervisor._spawn_and_stream`. -/
def spawnAndStream (outcome : SpawnOutcome) : SpawnTrace :=
  match outcome with
  | SpawnOutcome.spawnFail msg =>
    { chunks := [⟨StreamLabel.stderr, "Failed to start command: " ++ msg ++ "\n"⟩]
      killed := false
      result := Except.error msg }
  | SpawnOutcome.spawned outLines errLines wait =>
    let pumped := outLines.map (fun l => LogChunkM.mk StreamLabel.stdout l) ++
      errLines.map (fun l => LogChunkM.mk StreamLabel.stderr l)
    match wait with
    | WaitOutcome.timeout =>
      { chunks := pumped ++ [⟨StreamLabel.stderr, "Command exceeded timeout; process killed\n"⟩]
        killed := true
        result := Except.ok (none, CommandStatus.cancelled) }
    | WaitOutcome.exited code =>
      { chunks := pumped
        killed := false
        result :=
          Except.ok (some code,
            if code = 0 then CommandStatus.succeeded else CommandStatus.failed) }

/-- A `record_command_result` call. -/
structure CommandResultRec where
  commandId : Nat
  status : CommandStatus
  exitCode : Option Int
  logPath : String
deriving DecidableEq, Repr

/-- A `record_artifact` call. -/
structure ArtifactRec where
  sessionId : String
  commandId : Nat
  kind : ArtifactKind
  path : String
deriving DecidableEq, Repr

/-- Observable effects of `run_command` after the command row exists: the
`record_command_result` calls in order, the `record_artifact` calls in order,
the log chunks written, whether the process was killed, and whether
`CommandExecutionError` propagated to the caller. -/
structure RunTrace where
  results : List CommandResultRec
  artifacts : List ArtifactRec
  chunks : List LogChunkM
  killed : Bool
  raised : Bool
deriving Repr

/-- Embedding of the execution phase of `WorkerSupervisor.run_command`:
records RUNNING, runs `_spawn_and_stream`, and on every terminal path invokes
`_record_completion` (terminal `record_command_result` followed by one log
`record_artifact`); `CommandExecutionError` is recorded as FAILED with
`exit_code=None` and re-raised. -/
def runCommandModel (sessionId : String) (commandId : Nat) (logPath : String)
    (outcome : SpawnOutcome) : RunTrace :=
  let runningRec : CommandResultRec := ⟨commandId, CommandStatus.running, none, logPath⟩
  let t := spawnAndStream outcome
  match t.result with
  | Except.error _ =>
    { results := [runningRec, ⟨commandId, CommandStatus.failed, none, logPath⟩]
      artifacts := [⟨sessionId, commandId, ArtifactKind.log, logPath⟩]
      chunks := t.chunks
      killed := t.killed
      raised := true }
  | Except.ok (exitCode, status) =>
    { results := [runningRec, ⟨commandId, status, exitCode, logPath⟩]
      artifacts := [⟨sessionId, commandId, ArtifactKind.log, logPath⟩]
      chunks := t.chunks
      killed := t.killed
      raised := false }

/-- Terminal command record of a run (the last `record_command_result` call). -/
def finalResult (t : RunTrace) : Option CommandResultRec :=
  t.results.getLast?

/-! ## Log broker — `debug_server/api/streams.py` and `api/routers/logs.py`

`LogManager` keeps, per session, a history list and a list of subscriber
queues; `append` pushes the event to the history and to every currently
registered queue.  The model fixes one session and numbers events.  The
`/sessions/{id}/logs` handler `stream_logs` captures the history with
`log_manager.history(session_id)`, sends it, and only afterwards registers a
queue with `log_manager.subscribe(session_id)`; events appended in between go
to the history only. -/

/-- State of `LogManager` for one session: the history and the registered
subscriber queues. -/
structure BrokerState where
  history : List Nat
  queues : List (List Nat)
deriving DecidableEq, Repr

/-- Embedding of `LogManager.append`: appends to the history and forwards to
every registered subscriber queue. -/
def brokerAppend (st : BrokerState) (e : Nat) : BrokerState :=
  { history := st.history ++ [e]
    queues := st.queues.map (fun q => q ++ [e]) }

/-- Embedding of `LogManager.history`: a snapshot of the history list. -/
def brokerHistory (st : BrokerState) : List Nat := st.history

/-- Embedding of `LogManager.subscribe`: registers a fresh empty queue and
returns its index. -/
def brokerSubscribe (st : BrokerState) : BrokerState × Nat :=
  ({ st with queues := st.queues ++ [[]] }, st.queues.length)

/-- Publish a list of events in order. -/
def appendAll (st : BrokerState) (es : List Nat) : BrokerState :=
  es.foldl brokerAppend st

/-- The events a `stream_logs` client receives, as a function of the broker
state at connect time, the events `mid` appended between the handler's history
capture and its queue registration, and the events `post` appended afterwards:
the history snapshot is sent first, then the queue is drained. -/
def streamLogsAttach (st : BrokerState) (mid post : List Nat) : List Nat :=
  let snapshot := brokerHistory st
  let afterMid := appendAll st mid
  let sub := brokerSubscribe afterMid
  let afterPost := appendAll sub.1 post
  snapshot ++ (afterPost.queues.getD sub.2 [])

/-! ## Environment manager — `debug_server/runner/environment.py`

`EnvironmentManager.ensure` derives the environment path from the stripped
request name, computes a fingerprint via `compute_dependency_hash` when
manifests or metadata are given, decides on a rebuild (`force`, missing
directory, or changed fingerprint), rebuilds by removing and recreating the
directory, and persists the fingerprint in the state store keyed by the raw
request name. -/

/-- An environment request (`EnvironmentRequest`). -/
structure EnvironmentRequestM where
  name : String
  manifests : List String
  metadata : List (String × String)
deriving DecidableEq, Repr

/-- A provisioned environment (`EnvironmentHandle`): the fingerprint is the
modelled hash. -/
structure EnvironmentHandleM where
  path : String
  pythonPath : String
  fingerprint : Option (List Nat)
deriving DecidableEq, Repr

/-- State owned by `EnvironmentManager`: the set of existing environment
directories and the `DependencyStateStore` contents (key to fingerprint). -/
structure EnvMgrState where
  dirs : List String
  states : List (String × List Nat)
deriving DecidableEq, Repr

/-- Lookup in the dependency state store (`DependencyStateStore.read`). -/
def stateRead (st : EnvMgrState) (key : String) : Option (List Nat) :=
  (st.states.find? (fun kv => kv.1 = key)).map (fun kv => kv.2)

/-- Write to the dependency state store (`DependencyStateStore.write`
overwrites the per-key file). -/
def stateWrite (st : EnvMgrState) (key : String) (fp : List Nat) : EnvMgrState :=
  { st with states := (key, fp) :: st.states.filter (fun kv => kv.1 ≠ key) }

/-- Whitespace as stripped by Python `str.strip()` (ASCII fragment). -/
def isPySpace (c : Char) : Bool :=
  c = ' ' || c = '\t' || c = '\n' || c = '\r' || c = '\x0b' || c = '\x0c'

/-- Model of Python `name.strip()`: removes leading and trailing whitespace. -/
def stripName (s : String) : String :=
  ⟨((s.data.dropWhile isPySpace).reverse.dropWhile isPySpace).reverse⟩

/-- Model of `name.replace("/", "-")` (a single-character pattern, so a
character-wise map). -/
def slashToDash (s : String) : String :=
  ⟨s.data.map (fun c => if c = '/' then '-' else c)⟩

/-- Environment directory path: `self.root / safe_name` where
`name = request.name.strip() or "default"` and
`safe_name = name.replace("/", "-")`. -/
def envPathOf (root : String) (name : String) : String :=
  let stripped := stripName name
  let n := if stripped = "" then "default" else stripped
  root ++ "/" ++ slashToDash n

/-- Fingerprint computation in `ensure`: `none` (outer) models the
`FileNotFoundError` from a missing manifest; `some none` means no manifests
and no metadata were given so no fingerprint is computed. -/
def envFingerprint (fs : FsModel) (req : EnvironmentRequestM) : Option (Option (List Nat)) :=
  if req.manifests = [] ∧ req.metadata = [] then some none
  else (computeDependencyHash fs req.manifests req.metadata).map some

/-- Embedding of `EnvironmentManager._needs_rebuild`. -/
def needsRebuild (st : EnvMgrState) (envPath key : String) (fp : Option (List Nat)) : Bool :=
  if st.dirs.contains envPath = false then true
  else match fp with
    | none => false
    | some f =>
      match stateRead st key with
      | none => true
      | some stored => decide (stored ≠ f)

/-- Result of `ensure`: the handle, the new manager state, whether a rebuild
happened, and whether an existing directory was removed (`shutil.rmtree`). -/
structure EnsureResult where
  handle : EnvironmentHandleM
  state : EnvMgrState
  rebuilt : Bool
  removedDir : Bool
deriving DecidableEq, Repr

/-- Embedding of `EnvironmentManager.ensure`; `none` models the propagated
`FileNotFoundError` for a missing manifest. -/
def ensureEnv (fs : FsModel) (root : String) (st : EnvMgrState)
    (req : EnvironmentRequestM) (force : Bool) : Option EnsureResult :=
  let envPath := envPathOf root req.name
  match envFingerprint fs req with
  | none => none
  | some fp =>
    let rebuild := force || needsRebuild st envPath req.name fp
    let removed := rebuild && st.dirs.contains envPath
    let st1 : EnvMgrState :=
      if rebuild then
        let afterDir : EnvMgrState :=
          { st with dirs := envPath :: st.dirs.filter (fun d => d ≠ envPath) }
        match fp with
        | some f => stateWrite afterDir req.name f
        | none => afterDir
      else
        match fp with
        | some f =>
          match stateRead st req.name with
          | none => stateWrite st req.name f
          | some _ => st
        | none => st
    some
      { handle := ⟨envPath, envPath ++ "/bin/python", fp⟩
        state := st1
        rebuilt := rebuild
        removedDir := removed }

/-- Sample reserved worktree holding lease token "tok". -/
def wtReserved : Worktree :=
  ⟨1, 2, "wt-p", some "c1", some "h1", WorktreeStatus.reserved,
    some "owner", some "tok", some 3, some 40, 5, 6⟩

/-- Sample idle worktree of repository 7, last updated at 30. -/
def wtIdleLate : Worktree :=
  ⟨1, 7, "wt-a", none, none, WorktreeStatus.idle, none, none, none, none, 1, 30⟩

/-- Sample idle worktree of repository 7, last updated at 20. -/
def wtIdleEarly : Worktree :=
  ⟨2, 7, "wt-b", none, none, WorktreeStatus.idle, none, none, none, none, 1, 20⟩

/-- Sample session row in the terminal status COMPLETED. -/
def sessDone : SessionRow :=
  ⟨"s", SessionStatus.completed, some 1, some 2, 3⟩

/-- Sample environment request naming the manifest `"ab"` of `exFs`. -/
def envReqSample : EnvironmentRequestM := ⟨"env", ["ab"], []⟩

/-- Sample environment-manager state: the directory for `envReqSample` exists
and the stored fingerprint matches the hash of manifest `"ab"`
(`"ab" ++ "1" ++ "5"` as bytes). -/
def envStSample : EnvMgrState := ⟨["R/env"], [("env", [97, 98, 49, 53])]⟩

/-! ## Theorems -/

/-- C1: In `WorkerSupervisor.run_command`, a spawn-time `OSError` produces
exactly one stderr log line describing the failure, a FAILED command record
with null exit code, and a raised `CommandExecutionError`; a wait timeout kills
the process, writes a stderr log line, and records CANCELLED with null exit
code; a normal exit records SUCCEEDED if and only if the exit code is 0, and
FAILED otherwise. -/
theorem c1_run_command_error_paths (sid : String) (cid : Nat) (lp : String) :
    (∀ msg,
      (runCommandModel sid cid lp (SpawnOutcome.spawnFail msg)).chunks =
        [⟨StreamLabel.stderr, "Failed to start command: " ++ msg ++ "\n"⟩] ∧
      finalResult (runCommandModel sid cid lp (SpawnOutcome.spawnFail msg)) =
        some ⟨cid, CommandStatus.failed, none, lp⟩ ∧
      (runCommandModel sid cid lp (SpawnOutcome.spawnFail msg)).raised = true) ∧
    (∀ outLines errLines,
      (runCommandModel sid cid lp
        (SpawnOutcome.spawned outLines errLines WaitOutcome.timeout)).killed = true ∧
      (runCommandModel sid cid lp
        (SpawnOutcome.spawned outLines errLines WaitOutcome.timeout)).chunks.getLast? =
          some ⟨StreamLabel.stderr, "Command exceeded timeout; process killed\n"⟩ ∧
      finalResult (runCommandModel sid cid lp
        (SpawnOutcome.spawned outLines errLines WaitOutcome.timeout)) =
          some ⟨cid, CommandStatus.cancelled, none, lp⟩) ∧
    (∀ outLines errLines (code : Int),
      finalResult (runCommandModel sid cid lp
        (SpawnOutcome.spawned outLines errLines (WaitOutcome.exited code))) =
          some ⟨cid, if code = 0 then CommandStatus.succeeded else CommandStatus.failed,
            some code, lp⟩ ∧
      ((if code = 0 then CommandStatus.succeeded else CommandStatus.failed) =
          CommandStatus.succeeded ↔ code = 0)) := by
  refine ⟨?_, ?_, ?_⟩
  · intro msg
    refine ⟨rfl, rfl, rfl⟩
  · intro outLines errLines
    refine ⟨rfl, ?_, rfl⟩
    simp [runCommandModel, spawnAndStream, List.getLast?_concat]
  · intro outLines errLines code
    constructor
    · simp [runCommandModel, spawnAndStream, finalResult]
    · by_cases h : code = 0 <;> simp [h]

/-- C6: Every terminal path of `run_command` (success, failure, timeout, and
the spawn-failure path) records exactly one log artifact for the command, and
that artifact's path equals the `log_path` stored on the command row. -/
theorem c6_one_log_artifact (sid : String) (cid : Nat) (lp : String)
    (outcome : SpawnOutcome) :
    (runCommandModel sid cid lp outcome).artifacts =
      [⟨sid, cid, ArtifactKind.log, lp⟩] ∧
    ∃ r, finalResult (runCommandModel sid cid lp outcome) = some r ∧
      (r.status = CommandStatus.succeeded ∨ r.status = CommandStatus.failed ∨
        r.status = CommandStatus.cancelled) ∧
      (runCommandModel sid cid lp outcome).artifacts =
        [⟨sid, cid, ArtifactKind.log, r.logPath⟩] := by
  cases outcome with
  | spawnFail msg =>
    exact ⟨rfl, ⟨cid, CommandStatus.failed, none, lp⟩, rfl, Or.inr (Or.inl rfl), rfl⟩
  | spawned outLines errLines wait =>
    cases wait with
    | timeout =>
      exact ⟨rfl, ⟨cid, CommandStatus.cancelled, none, lp⟩, rfl,
        Or.inr (Or.inr rfl), rfl⟩
    | exited code =>
      by_cases h : code = 0
      · refine ⟨rfl, ⟨cid, CommandStatus.succeeded, some code, lp⟩, ?_, Or.inl rfl, rfl⟩
        simp [runCommandModel, spawnAndStream, finalResult, h]
      · refine ⟨rfl, ⟨cid, CommandStatus.failed, some code, lp⟩, ?_, Or.inr (Or.inl rfl), rfl⟩
        simp [runCommandModel, spawnAndStream, finalResult, h]

/-- C2: The claim that a `/sessions/{id}/logs` subscriber never misses an event
appended between the handler's history capture and its queue registration fails
on the code: with history `[0]` at connect time, event `1` appended between
`history()` and `subscribe()`, and event `2` appended afterwards, the
subscriber receives `[0, 2]` and event `1` is lost. -/
theorem c2_stream_logs_loses_mid_event :
    streamLogsAttach (appendAll ⟨[], []⟩ [0]) [1] [2] = [0, 2] ∧
    ([0, 2] : List Nat) ≠ [0] ++ [1] ++ [2] := by decide

/-- C3 counterexample: `needs_dependency_sync` is not "true iff the stored
hash differs from the requested one" — requesting a null `environment_hash` on
a worktree whose stored hash is `"h"` yields `false` although the two differ. -/
theorem c3_needs_sync_counterexample :
    acquireNeedsSync (some "h") none = false ∧ (some "h" : Option String) ≠ none := by
  exact ⟨rfl, by decide⟩

/-- C3 (amended): the lease's `needs_dependency_sync` flag is true iff the
requested `environment_hash` is non-null and the previously stored hash differs
from it; consequently acquire/release/re-acquire with an unchanged non-null
hash yields true, then false, then true again once the hash changes. -/
theorem c3_needs_sync_amended :
    (∀ prior requested : Option String,
      acquireNeedsSync prior requested = true ↔
        requested.isSome = true ∧ prior ≠ requested) ∧
    (∀ h h' : String, h ≠ h' →
      (acquireUpdate none (some h)).1 = true ∧
      (acquireUpdate (acquireUpdate none (some h)).2 (some h)).1 = false ∧
      (acquireUpdate (acquireUpdate (acquireUpdate none (some h)).2 (some h)).2
        (some h')).1 = true) := by
  constructor
  · intro prior requested
    simp [acquireNeedsSync]
  · intro h h' hne
    refine ⟨?_, ?_, ?_⟩
    · simp [acquireUpdate, acquireNeedsSync]
    · simp [acquireUpdate, acquireNeedsSync]
    · simp [acquireUpdate, acquireNeedsSync, hne]

/-- C3 witness: the amended statement evaluated on hashes "a" and "b". -/
theorem c3_needs_sync_amended_witness :
    ("a" : String) ≠ "b" ∧
    ((acquireUpdate none (some "a")).1 = true ∧
     (acquireUpdate (acquireUpdate none (some "a")).2 (some "a")).1 = false ∧
     (acquireUpdate (acquireUpdate (acquireUpdate none (some "a")).2 (some "a")).2
       (some "b")).1 = true) :=
  ⟨by decide, c3_needs_sync_amended.2 "a" "b" (by decide)⟩

/-- C4: `release_worktree(worktree_id, lease_token)` succeeds iff the given
token equals the token stored on that worktree; on success it sets status IDLE
and nulls the lease fields; on a mismatch it fails with the lease-mismatch
error and (the transaction aborting) leaves the row unchanged. -/
theorem c4_release_worktree (store : List Worktree) (wid : Nat) (token : String)
    (now : Nat) :
    ((∃ st', releaseWorktree store wid token now = Except.ok st') ↔
      (∃ w, store.find? (fun w => w.id = wid) = some w ∧ w.leaseToken = some token)) ∧
    (∀ w, store.find? (fun w => w.id = wid) = some w → w.leaseToken = some token →
      releaseWorktree store wid token now =
        Except.ok (store.map (fun r => if r.id = wid then releaseMark r now else r)) ∧
      (releaseMark w now).status = WorktreeStatus.idle ∧
      (releaseMark w now).leaseOwner = none ∧
      (releaseMark w now).leaseToken = none ∧
      (releaseMark w now).leasedAt = none ∧
      (releaseMark w now).leaseExpiresAt = none) ∧
    (∀ w, store.find? (fun w => w.id = wid) = some w → w.leaseToken ≠ some token →
      releaseWorktree store wid token now = Except.error "Lease token mismatch") := by
  refine ⟨?_, ?_, ?_⟩
  · cases hf : store.find? (fun w => w.id = wid) with
    | none => simp [releaseWorktree, hf]
    | some w =>
      by_cases ht : w.leaseToken = some token
      · simp [releaseWorktree, hf, ht]
      · simp [releaseWorktree, hf, ht]
  · intro w hf ht
    refine ⟨?_, rfl, rfl, rfl, rfl, rfl⟩
    simp [releaseWorktree, hf, ht]
  · intro w hf ht
    simp [releaseWorktree, hf, ht]

/-- C4 witness: releasing the sample reserved worktree with the matching token
"tok" succeeds and resets the lease fields. -/
theorem c4_release_worktree_witness :
    releaseWorktree [wtReserved] 1 "tok" 9 =
      Except.ok ([wtReserved].map (fun r => if r.id = 1 then releaseMark r 9 else r)) ∧
    (releaseMark wtReserved 9).status = WorktreeStatus.idle ∧
    (releaseMark wtReserved 9).leaseOwner = none ∧
    (releaseMark wtReserved 9).leaseToken = none ∧
    (releaseMark wtReserved 9).leasedAt = none ∧
    (releaseMark wtReserved 9).leaseExpiresAt = none :=
  (c4_release_worktree [wtReserved] 1 "tok" 9).2.1 wtReserved (by decide) (by decide)

/-- C8 counterexample: a session already COMPLETED — a terminal status — is
moved to CANCELLED by the `DELETE /sessions/{id}` handler, so cancellation is
not restricted to PENDING or RUNNING and a terminal session's status does
change. -/
theorem c8_cancel_counterexample :
    sessDone.status = SessionStatus.completed ∧
    cancelSession [sessDone] "s" 9 =
      Except.ok [⟨"s", SessionStatus.cancelled, some 1, some 9, 9⟩] ∧
    SessionStatus.completed ≠ SessionStatus.cancelled :=
  ⟨rfl, by rfl, by decide⟩

/-- C8 (amended): `DELETE /sessions/{id}` returns 404 for an unknown session
and otherwise sets the session's status to CANCELLED unconditionally,
whatever the current status — including terminal ones. -/
theorem c8_cancel_amended (store : List SessionRow) (sid : String) (now : Nat) :
    (store.find? (fun s => s.id = sid) = none →
      cancelSession store sid now = Except.error "Session not found") ∧
    (∀ s0, store.find? (fun s => s.id = sid) = some s0 →
      cancelSession store sid now = Except.ok (store.map (fun s =>
        if s.id = sid then
          updateSessionStatus s SessionStatus.cancelled none (some now) now
        else s)) ∧
      (updateSessionStatus s0 SessionStatus.cancelled none (some now) now).status =
        SessionStatus.cancelled) := by
  constructor
  · intro hf
    simp [cancelSession, hf]
  · intro s0 hf
    exact ⟨by simp [cancelSession, hf], rfl⟩

/-- C8 witness: the amended statement evaluated on the sample COMPLETED
session. -/
theorem c8_cancel_amended_witness :
    cancelSession [sessDone] "s" 9 = Except.ok ([sessDone].map (fun s =>
      if s.id = "s" then
        updateSessionStatus s SessionStatus.cancelled none (some 9) 9
      else s)) ∧
    (updateSessionStatus sessDone SessionStatus.cancelled none (some 9) 9).status =
      SessionStatus.cancelled :=
  (c8_cancel_amended [sessDone] "s" 9).2 sessDone (by decide)

/-- C10: `reserve_worktree` orders the rows matching the reservation predicate
(IDLE, or lease expiry set and earlier than now) by `updated_at` ascending and
takes the first, so the selected row is an eligible row of the repository with
the smallest `updated_at` — the least recently updated one — and selection
fails only when no row is eligible. -/
theorem c10_reserve_least_recently_updated (store : List Worktree) (repoId now : Nat) :
    (∀ w, reserveSelected store repoId now = some w →
      w ∈ store ∧ w.repositoryId = repoId ∧ eligible now w = true ∧
      ∀ w' ∈ store, w'.repositoryId = repoId → eligible now w' = true →
        w.updatedAt ≤ w'.updatedAt) ∧
    (reserveSelected store repoId now = none →
      ∀ w' ∈ store, ¬(w'.repositoryId = repoId ∧ eligible now w' = true)) := by
  have hperm : (reserveCandidates store repoId now).Perm
      (store.filter (fun w => w.repositoryId = repoId && eligible now w)) :=
    List.perm_insertionSort _ _
  have hsort : List.Sorted (fun a b : Worktree => a.updatedAt ≤ b.updatedAt)
      (reserveCandidates store repoId now) :=
    @List.sorted_insertionSort Worktree (fun a b => a.updatedAt ≤ b.updatedAt) _
      ⟨fun a b => Nat.le_total _ _⟩ ⟨fun _ _ _ => Nat.le_trans⟩ _
  constructor
  · intro w hw
    cases hc : reserveCandidates store repoId now with
    | nil => simp [reserveSelected, hc] at hw
    | cons a t =>
      have hwa : w = a := by
        simp [reserveSelected, hc] at hw
        exact hw.symm
      subst hwa
      have hmem : w ∈ store.filter (fun w => w.repositoryId = repoId && eligible now w) :=
        hperm.mem_iff.mp (by simp [hc])
      have hmem' := List.mem_filter.mp hmem
      have hpred : w.repositoryId = repoId ∧ eligible now w = true := by
        simpa using hmem'.2
      refine ⟨hmem'.1, hpred.1, hpred.2, ?_⟩
      intro w' hw' hrepo helig
      have hmemf : w' ∈ store.filter (fun w => w.repositoryId = repoId && eligible now w) :=
        List.mem_filter.mpr ⟨hw', by simp [hrepo, helig]⟩
      have hmemc : w' ∈ reserveCandidates store repoId now := hperm.mem_iff.mpr hmemf
      rw [hc] at hmemc hsort
      rcases List.mem_cons.mp hmemc with h | h
      · exact h ▸ Nat.le_refl _
      · exact (List.sorted_cons.mp hsort).1 w' h
  · intro hnone w' hw' hpred
    have hc : reserveCandidates store repoId now = [] := by
      simpa [reserveSelected, List.head?_eq_none_iff] using hnone
    have hmemf : w' ∈ store.filter (fun w => w.repositoryId = repoId && eligible now w) :=
      List.mem_filter.mpr ⟨hw', by simp [hpred.1, hpred.2]⟩
    have : w' ∈ reserveCandidates store repoId now := hperm.mem_iff.mpr hmemf
    rw [hc] at this
    simp at this

/-- C10 witness: with two idle worktrees of repository 7 updated at 30 and 20,
the one updated at 20 is selected and its timestamp is minimal. -/
theorem c10_reserve_least_recently_updated_witness :
    wtIdleEarly ∈ [wtIdleLate, wtIdleEarly] ∧
    wtIdleEarly.repositoryId = 7 ∧ eligible 100 wtIdleEarly = true ∧
    wtIdleEarly.updatedAt ≤ wtIdleLate.updatedAt := by
  have h := (c10_reserve_least_recently_updated [wtIdleLate, wtIdleEarly] 7 100).1
    wtIdleEarly (by decide)
  exact ⟨h.1, h.2.1, h.2.2.1, h.2.2.2 wtIdleLate (by decide) (by decide) (by decide)⟩

/-- Helper: prepending a counter value to a consecutive run shifts the range by
one. -/
theorem cons_map_range (n k : Nat) :
    n :: List.map (fun i => n + 1 + i) (List.range k) =
      List.map (fun i => n + i) (List.range (k + 1)) := by
  rw [List.range_succ_eq_map, List.map_cons, List.map_map]
  refine congrArg₂ List.cons (by omega) ?_
  apply List.map_congr_left
  intro i _
  simp only [Function.comp_apply, Nat.succ_eq_add_one]
  omega

/-- Helper: values allocated for a session by a run of `_next_sequence` calls
are consecutive starting from the session's current counter. -/
theorem runAlloc_allocFor (calls : List String) :
    ∀ (st : String → Nat) (sid : String),
      allocFor sid (runAlloc st calls) =
        (List.range (calls.count sid)).map (fun i => st sid + i) := by
  induction calls with
  | nil => intro st sid; simp [runAlloc, allocFor]
  | cons c rest ih =>
    intro st sid
    simp only [runAlloc, nextSequence]
    by_cases hc : c = sid
    · subst hc
      have h1 : allocFor c ((c, st c) ::
          runAlloc (fun s => if s = c then st c + 1 else st s) rest) =
          st c :: allocFor c (runAlloc (fun s => if s = c then st c + 1 else st s) rest) := by
        simp [allocFor]
      rw [h1, ih]
      have h2 : List.map
          (fun i => (fun s => if s = c then st c + 1 else st s) c + i)
          (List.range (rest.count c)) =
          List.map (fun i => st c + 1 + i) (List.range (rest.count c)) := by
        simp
      rw [h2, List.count_cons_self, cons_map_range]
    · have h1 : allocFor sid ((c, st c) ::
          runAlloc (fun s => if s = c then st c + 1 else st s) rest) =
          allocFor sid (runAlloc (fun s => if s = c then st c + 1 else st s) rest) := by
        simp [allocFor, hc]
      have hcount : (c :: rest).count sid = rest.count sid := by
        rw [List.count_cons]
        simp [hc]
      rw [h1, ih, hcount]
      simp [Ne.symm hc]

/-- Helper: creating a command appends its sequence for its own session and
leaves other sessions' sequences unchanged. -/
theorem seqsFor_queueCommand (store : List CommandRow) (c sid : String) :
    seqsFor sid (queueCommand store c) =
      if c = sid then seqsFor sid store ++ [nextCommandSequence store sid]
      else seqsFor sid store := by
  by_cases hc : c = sid
  · subst hc
    simp [seqsFor, queueCommand, List.filter_append, nextCommandSequence]
  · simp [seqsFor, queueCommand, List.filter_append, hc]

/-- Helper: the next sequence for a session grows by one exactly when a command
is created for that session. -/
theorem nextCommandSequence_queueCommand (store : List CommandRow) (c sid : String) :
    nextCommandSequence (queueCommand store c) sid =
      nextCommandSequence store sid + (if c = sid then 1 else 0) := by
  by_cases hc : c = sid
  · subst hc
    simp [nextCommandSequence, queueCommand, List.filter_append]
  · simp [nextCommandSequence, queueCommand, List.filter_append, hc]

/-- Helper: the per-session sequence invariant (rows carry `0, 1, …, n-1`) is
preserved by any run of `queue_command` calls. -/
theorem runQueue_invariant (calls : List String) :
    ∀ store : List CommandRow,
      (∀ s, seqsFor s store = List.range (nextCommandSequence store s)) →
      ∀ s, seqsFor s (runQueue store calls) =
        List.range (nextCommandSequence (runQueue store calls) s) := by
  induction calls with
  | nil => intro store hinv s; simpa [runQueue] using hinv s
  | cons c rest ih =>
    intro store hinv s
    simp only [runQueue]
    apply ih
    intro s'
    rw [seqsFor_queueCommand, nextCommandSequence_queueCommand]
    by_cases hc : c = s'
    · simp [hc, hinv s', List.range_succ]
    · simp [hc, hinv s']

/-- Helper: the final next-sequence of a session equals the prior one plus the
number of queued commands for that session. -/
theorem nextCommandSequence_runQueue (calls : List String) :
    ∀ (store : List CommandRow) (sid : String),
      nextCommandSequence (runQueue store calls) sid =
        nextCommandSequence store sid + calls.count sid := by
  induction calls with
  | nil => intro store sid; simp [runQueue]
  | cons c rest ih =>
    intro store sid
    simp only [runQueue]
    rw [ih, nextCommandSequence_queueCommand, List.count_cons]
    by_cases hc : c = sid
    · simp [hc]
      omega
    · simp [hc]

/-- C5 counterexample: the two allocators do not compose.  Queue one command
for session "s" through the endpoint (it gets sequence 0 from the store), then
run one through `WorkerSupervisor.run_command`: the supervisor's private
in-memory counter ignores the existing row and allocates 0 again, so the
session's command rows carry sequences `[0, 0]` — not strictly increasing, the
second command not one greater than the first. -/
theorem c5_sequences_counterexample :
    seqsFor "s" (runMixed [AllocCall.endpoint "s", AllocCall.supervisor "s"]) = [0, 0] ∧
    ¬ List.Pairwise (fun a b => a < b)
      (seqsFor "s" (runMixed [AllocCall.endpoint "s", AllocCall.supervisor "s"])) :=
  ⟨by decide, by decide⟩

/-- C5 (amended): each allocator on its own yields, per session, the sequence
values `0, 1, 2, …` — each freshly created command one greater than the
previous — under any interleaving of sessions: histories made only of
`queue_command` calls (store-backed, spec-modelled `next_command_sequence`),
and histories made only of `WorkerSupervisor._next_sequence` allocations from
a fresh supervisor; mixed histories are excluded, since the supervisor's
private counter ignores rows created through the endpoint. -/
theorem c5_command_sequences (calls : List String) (sid : String) :
    allocFor sid (runAlloc (fun _ => 0) calls) = List.range (calls.count sid) ∧
    seqsFor sid (runQueue [] calls) = List.range (calls.count sid) := by
  constructor
  · rw [runAlloc_allocFor]
    simp
  · rw [runQueue_invariant calls [] (fun s => by simp [seqsFor, nextCommandSequence]) sid,
      nextCommandSequence_runQueue]
    simp [nextCommandSequence]

/-- Helper: the byte stream fed for a manifest list is determined by its
(basename, bytes, mtime) triples. -/
theorem feedManifests_eq_triples (fs : FsModel) :
    ∀ l : List String, feedManifests fs l = (triplesOf fs l).map bytesOfTriples := by
  intro l
  induction l with
  | nil => simp [feedManifests, triplesOf, bytesOfTriples]
  | cons p ps ih =>
    simp only [feedManifests, triplesOf]
    cases hm : fs p with
    | none => simp
    | some m =>
      rw [ih]
      cases hmm : triplesOf fs ps with
      | none => simp
      | some ts => simp [bytesOfTriples]

/-- Helper: a missing manifest anywhere in the list makes the feed fail. -/
theorem feedManifests_missing (fs : FsModel) (p : String) :
    ∀ l : List String, p ∈ l → fs p = none → feedManifests fs l = none := by
  intro l
  induction l with
  | nil => intro h; simp at h
  | cons q qs ih =>
    intro hmem hnone
    cases hq : fs q with
    | none => simp [feedManifests, hq]
    | some m =>
      rcases List.mem_cons.mp hmem with h | h
      · rw [h] at hnone
        rw [hnone] at hq
        exact absurd hq (by simp)
      · simp [feedManifests, hq, ih h hnone]

/-- C7 counterexample, refuting both directions of the claimed "if and only
if".  Only-if: a file named `"ab"` containing `"1"` and a file named `"a"`
containing `"b1"` (equal mtimes) feed identical byte streams — `"ab" + "1"`
and `"a" + "b1"` are the same bytes — so the hashes are equal although the
(basename, bytes, mtime) triples differ.  If: the manifest lists
`["r/b", "r.x/c"]` and `["s/b", "a/c"]` have equal triple sequences under the
claim's absolute-path-string ordering (and equal, empty, metadata), yet the
code sorts `Path` objects parts-wise, feeding the first list as (b-triple,
c-triple) and the second as (c-triple, b-triple), so the hashes differ. -/
theorem c7_hash_counterexample :
    (computeDependencyHash exFs ["ab"] [] = computeDependencyHash exFs ["a"] [] ∧
      claimTriples "/w" exFs ["ab"] ≠ claimTriples "/w" exFs ["a"]) ∧
    (claimTriples "/w" exFs2 ["r/b", "r.x/c"] = claimTriples "/w" exFs2 ["s/b", "a/c"] ∧
      computeDependencyHash exFs2 ["r/b", "r.x/c"] [] ≠
        computeDependencyHash exFs2 ["s/b", "a/c"] []) :=
  ⟨⟨by decide, by decide⟩, by decide, by decide⟩

/-- C7 (amended): equal (basename, bytes, mtime) triple sequences — taken in
the order `sorted(map(Path, manifests))` produces, i.e. lexicographically by
the paths' component lists with components compared by code points, not by
absolute path string — together with equal (key-sorted) metadata maps yield
equal hashes, and a missing manifest path is a hard error; equality of hashes
is equality of the concatenated fed byte streams, which the triples determine
but (absent separators) do not follow from. -/
theorem c7_hash_amended :
    (∀ (fs fs' : FsModel) (M M' : List String) (X X' : List (String × String)),
      manifestTriples fs M = manifestTriples fs' M' →
      sortMeta X = sortMeta X' →
      computeDependencyHash fs M X = computeDependencyHash fs' M' X') ∧
    (∀ (fs : FsModel) (M : List String) (X : List (String × String)) (p : String),
      p ∈ M → fs p = none → computeDependencyHash fs M X = none) := by
  constructor
  · intro fs fs' M M' X X' htr hmeta
    unfold computeDependencyHash
    rw [feedManifests_eq_triples, feedManifests_eq_triples]
    unfold manifestTriples at htr
    rw [htr]
    have hmb : metaBytes X = metaBytes X' := by
      unfold metaBytes
      rw [hmeta]
    rw [hmb]
  · intro fs M X p hp hnone
    have hmem : p ∈ sortPaths M := by
      unfold sortPaths
      exact (List.perm_insertionSort _ _).mem_iff.mpr hp
    unfold computeDependencyHash
    rw [feedManifests_missing fs p _ hmem hnone]
    rfl

/-- C7 witness: the amended statement evaluated on the sample file system —
reordering the metadata map leaves the hash unchanged, and the missing path
`"zz"` is a hard error. -/
theorem c7_hash_amended_witness :
    computeDependencyHash exFs ["ab"] [("k", "v"), ("j", "u")] =
      computeDependencyHash exFs ["ab"] [("j", "u"), ("k", "v")] ∧
    computeDependencyHash exFs ["zz"] [] = none :=
  ⟨c7_hash_amended.1 exFs exFs ["ab"] ["ab"] [("k", "v"), ("j", "u")]
      [("j", "u"), ("k", "v")] rfl (by decide),
   c7_hash_amended.2 exFs ["zz"] [] "zz" (by decide) (by decide)⟩

/-- C9: `EnvironmentManager.ensure` with `force=false` is idempotent when the
environment directory exists and the stored fingerprint for the request name
equals the newly computed one (or no fingerprint is computed because the
request has no manifests and no metadata): no rebuild happens, the directory is
neither removed nor recreated, the manager state is unchanged, and a second
identical call returns the same handle — same path, python path, and
fingerprint. -/
theorem c9_ensure_idempotent (fs : FsModel) (root : String) (st : EnvMgrState)
    (req : EnvironmentRequestM)
    (hdir : st.dirs.contains (envPathOf root req.name) = true)
    (hfp : envFingerprint fs req = some none ∨
      ∃ f, envFingerprint fs req = some (some f) ∧ stateRead st req.name = some f) :
    ∃ r, ensureEnv fs root st req false = some r ∧
      r.rebuilt = false ∧ r.removedDir = false ∧ r.state = st ∧
      ensureEnv fs root r.state req false = some r := by
  have hmem : envPathOf root req.name ∈ st.dirs := by simpa using hdir
  rcases hfp with h | ⟨f, hf, hr⟩
  · refine ⟨⟨⟨envPathOf root req.name, envPathOf root req.name ++ "/bin/python", none⟩,
      st, false, false⟩, ?_, rfl, rfl, rfl, ?_⟩
    · simp [ensureEnv, h, needsRebuild, hdir]
      exact ⟨fun hn => absurd hmem hn, hmem⟩
    · simp [ensureEnv, h, needsRebuild, hdir]
      exact ⟨fun hn => absurd hmem hn, hmem⟩
  · refine ⟨⟨⟨envPathOf root req.name, envPathOf root req.name ++ "/bin/python", some f⟩,
      st, false, false⟩, ?_, rfl, rfl, rfl, ?_⟩
    · simp [ensureEnv, hf, needsRebuild, hdir, hr]
      exact ⟨fun hn => absurd hmem hn, hmem⟩
    · simp [ensureEnv, hf, needsRebuild, hdir, hr]
      exact ⟨fun hn => absurd hmem hn, hmem⟩

/-- C9 witness: the sample state (existing directory "R/env", stored
fingerprint matching manifest "ab") is returned unchanged by `ensure`. -/
theorem c9_ensure_idempotent_witness :
    ∃ r, ensureEnv exFs "R" envStSample envReqSample false = some r ∧
      r.rebuilt = false ∧ r.removedDir = false ∧ r.state = envStSample ∧
      ensureEnv exFs "R" r.state envReqSample false = some r :=
  c9_ensure_idempotent exFs "R" envStSample envReqSample (by decide)
    (Or.inr ⟨[97, 98, 49, 53], by decide, by decide⟩)

end DebugServer
